import Mathlib

/-!
Verification of the golden-dataset building scripts of this repository.

The development shallowly embeds the algorithmic core of
`src/exploration/golden_dataset/build_boundary_gold_set.py`,
`src/exploration/golden_dataset/build_seams_disagreement_set.py` and
`src/exploration/golden_dataset/find_seams_differences.py`.

Modelling conventions:
- Python strings are modelled as `List Char` (`Str` below); Python slicing
  `s[a:b]` (with `0 ≤ a`, `0 ≤ b`) is `pySlice a b s`.
- Python floats are modelled as rationals (`ℚ`); the similarity thresholds
  0.9, 0.7 and 0.5 become `9/10`, `7/10` and `1/2`.
- `difflib.SequenceMatcher` is embedded by its published algorithm
  (longest-matching-block recursion).  The junk / autojunk machinery is not
  modelled: autojunk only activates for sequences of length ≥ 200, below
  which the junk sets are empty and the extension loops after the dynamic
  program provably never fire, so the embedding agrees with difflib there.
- The external segmentation libraries (`nupunkt`, `pysbd`) are black-box
  collaborators; they are passed as function parameters `Str → List Str`
  (a raising or failing collaborator is the constant-`[]` function, exactly
  the value produced by the scripts' `except` handlers).
- `random.sample` / `random.shuffle` are modelled by a deterministic
  without-replacement selection driven by a linear congruential generator
  threaded through the pipeline in the same call order as the scripts use
  the process-wide `random` state.  The properties proved below do not
  depend on which without-replacement selection the generator makes.
- Bounded loops are embedded with an explicit fuel argument where the
  Python loop is not structurally recursive; the fuel supplied at every
  call site strictly dominates the number of iterations the loop can make,
  so the fuel branch is never the one taken.
-/

set_option autoImplicit false

/-! ### Python string primitives -/

/-- Python strings as lists of characters. -/
abbrev Str := List Char

/-- String literal to `Str` conversion (for concrete documents and verdicts). -/
def str (s : String) : Str := s.data

/-- Python `\s` / `str.split()` whitespace class (ASCII part). -/
def pyIsSpace (c : Char) : Bool :=
  c = ' ' || c = '\t' || c = '\n' || c = '\r' || c = '\x0b' || c = '\x0c'

/-- Python `str.strip()`. -/
def pyStrip (t : Str) : Str :=
  List.rdropWhile pyIsSpace (t.dropWhile pyIsSpace)

/-- Python `line.rstrip('\n\r')`. -/
def rstripNR (t : Str) : Str :=
  List.rdropWhile (fun c => c = '\n' || c = '\r') t

/-- Python `s[a:b]` for natural `a`, `b`. -/
def pySlice (a b : Nat) (s : Str) : Str :=
  (s.drop a).take (b - a)

/-- Python `text.split()`: split on whitespace runs, dropping empty pieces. -/
def pySplitWs (t : Str) : List Str :=
  (List.splitOnP pyIsSpace t).filter (fun w => w ≠ [])

/-- Python `c.lower()` (per character). -/
def pyLower (t : Str) : Str := t.map Char.toLower

/-- Python substring containment `needle in hay`. -/
def pyInfixOf (needle hay : Str) : Bool := decide (needle <:+: hay)

/-- Splitting a string on the newline character (used to state the
re-splitting property of verbatim extraction). -/
def splitOnNl : Str → List Str
  | [] => [[]]
  | c :: t =>
    let r := splitOnNl t
    if c = '\n' then [] :: r else (c :: r.headI) :: r.tail

/-! ### difflib.SequenceMatcher -/

/-- Indices of the occurrences of `c` in `b` (difflib's `b2j` row, junk-free). -/
def b2j (b : Str) (c : Char) : List Nat :=
  (List.range b.length).filter (fun j => b.getD j c = c)

/-- Current best block of `find_longest_match`: start in `a`, start in `b`, size. -/
structure FLM where
  besti : Nat
  bestj : Nat
  bestsize : Nat
deriving DecidableEq

/-- Inner `for j in b2j[a[i]]` body of difflib's `find_longest_match`. -/
def flmProcessJ (j2len : Nat → Nat) (i : Nat) (acc : (Nat → Nat) × FLM) (j : Nat) :
    (Nat → Nat) × FLM :=
  let k := if j = 0 then 1 else j2len (j - 1) + 1
  let newj2len := fun j' => if j' = j then k else acc.1 j'
  let best := if acc.2.bestsize < k then ⟨i + 1 - k, j + 1 - k, k⟩ else acc.2
  (newj2len, best)

/-- One row (`for i in range(alo, ahi)`) of difflib's `find_longest_match`. -/
def flmRow (a b : Str) (blo bhi : Nat) (st : (Nat → Nat) × FLM) (i : Nat) :
    (Nat → Nat) × FLM :=
  let js := (b2j b (a.getD i ' ')).filter (fun j => blo ≤ j && j < bhi)
  js.foldl (flmProcessJ st.1 i) ((fun _ => 0), st.2)

/-- difflib `SequenceMatcher.find_longest_match` on junk-free sequences. -/
def find_longest_match (a b : Str) (alo ahi blo bhi : Nat) : FLM :=
  ((List.range' alo (ahi - alo)).foldl (flmRow a b blo bhi)
    ((fun _ => 0), ⟨alo, blo, 0⟩)).2

/-- Total matched-character count of difflib `get_matching_blocks`
(the recursion over sub-ranges; the fuel strictly dominates the recursion
depth, which shrinks the interval sum at every level). -/
def matchingBlocksCount (a b : Str) : Nat → Nat → Nat → Nat → Nat → Nat
  | 0, _, _, _, _ => 0
  | fuel + 1, alo, ahi, blo, bhi =>
    let m := find_longest_match a b alo ahi blo bhi
    if m.bestsize = 0 then 0
    else
      matchingBlocksCount a b fuel alo m.besti blo m.bestj
        + m.bestsize
        + matchingBlocksCount a b fuel (m.besti + m.bestsize) ahi
            (m.bestj + m.bestsize) bhi

/-- difflib `SequenceMatcher(None, a, b).ratio()` as a rational
(`2.0 * M / T`; difflib returns `1.0` when both sequences are empty). -/
def sequenceMatcherScore (a b : Str) : ℚ :=
  if a.length + b.length = 0 then 1
  else
    mkRat (2 * (matchingBlocksCount a b (a.length + b.length + 1)
            0 a.length 0 b.length)) (a.length + b.length)


/-! ### Data model -/

/-- One parsed seams record: sentence text plus its 1-based
`(start_line, start_col, end_line, end_col)` coordinates. -/
structure SentCoord where
  text : Str
  start_line : Nat
  start_col : Nat
  end_line : Nat
  end_col : Nat
deriving DecidableEq

instance : Inhabited SentCoord := ⟨⟨[], 0, 0, 0, 0⟩⟩

/-- The `BoundaryExample` dataclass of build_boundary_gold_set.py. -/
structure BoundaryExample where
  original_text : Str
  seams_sentences : List Str
  comparison_sentences : List Str
  comparison_method : Str
  nupunkt_sentences : List Str
  pysbd_sentences : List Str
  source_file : Str
  start_line : Nat
  end_line : Nat
  complexity : Str
  disagreement_type : Str
deriving DecidableEq

instance : Inhabited BoundaryExample := ⟨⟨[], [], [], [], [], [], [], 0, 0, [], []⟩⟩

/-- The `SeamsDisagreement` dataclass of build_seams_disagreement_set.py. -/
structure SeamsDisagreement where
  original_text : Str
  seams_sentences : List Str
  pysbd_sentences : List Str
  nupunkt_sentences : List Str
  disagreement_type : Str
  source_file : Str
  text_region_start : Nat
  text_region_end : Nat
  complexity_indicators : List Str
deriving DecidableEq

instance : Inhabited SeamsDisagreement := ⟨⟨[], [], [], [], [], [], 0, 0, []⟩⟩

/-- The `SeamsDifference` dataclass of find_seams_differences.py. -/
structure SeamsDifference where
  original_text : Str
  seams_sentences : List Str
  pysbd_sentences : List Str
  nupunkt_sentences : List Str
  source_file : Str
  text_start_line : Nat
  text_start_col : Nat
  text_end_line : Nat
  text_end_col : Nat
  differs_from_pysbd : Bool
  differs_from_nupunkt : Bool
deriving DecidableEq

instance : Inhabited SeamsDifference := ⟨⟨[], [], [], [], [], 0, 0, 0, 0, false, false⟩⟩

/-! ### build_boundary_gold_set.py -/

namespace BoundaryGold

/-- Embedding of `BoundaryGoldSetBuilder.extract_original_region` (lines 142-176):
coordinate extraction with `rstrip('\n\r')`-trimmed lines, multi-line parts
joined by a single space, out-of-range line indices giving `""`. -/
def extract_original_region (original_lines : List Str)
    (start_line start_col end_line end_col : Nat) : Str :=
  if original_lines.length < start_line ∨ original_lines.length < end_line then []
  else
    let start_line_idx := start_line - 1
    let end_line_idx := end_line - 1
    let start_col_idx := start_col - 1
    let end_col_idx := end_col - 1
    if start_line_idx = end_line_idx then
      let line := rstripNR (original_lines.getD start_line_idx [])
      if end_col_idx ≤ line.length then pySlice start_col_idx end_col_idx line
      else line.drop start_col_idx
    else
      let first_line := rstripNR (original_lines.getD start_line_idx [])
      let p1 := if start_col_idx < first_line.length then [first_line.drop start_col_idx] else []
      let mids := (List.range' (start_line_idx + 1) (end_line_idx - (start_line_idx + 1))).map
        (fun j => rstripNR (original_lines.getD j []))
      let p3 :=
        if end_line_idx < original_lines.length then
          let last_line := rstripNR (original_lines.getD end_line_idx [])
          if end_col_idx ≤ last_line.length then [last_line.take end_col_idx] else [last_line]
        else []
      List.intercalate [' '] (p1 ++ mids ++ p3)

/-- Embedding of `BoundaryGoldSetBuilder.sentences_overlap` (lines 259-281). -/
def sentences_overlap (comparison_sent : Str) (seams_texts : List Str)
    (original_region : Str) : Bool :=
  let comparison_lower := pyLower comparison_sent
  let original_lower := pyLower original_region
  if pyInfixOf comparison_lower original_lower then true
  else if seams_texts.any (fun seams_text =>
      mkRat 7 10 < sequenceMatcherScore comparison_lower (pyLower seams_text)) then true
  else
    let comparison_words := ((pySplitWs comparison_lower).filter
      (fun (word : Str) => 4 < word.length)).dedup
    if 0 < comparison_words.length then
      let original_words := (pySplitWs original_lower).dedup
      let inter := comparison_words.filter (fun w => w ∈ original_words)
      decide (mkRat 1 2 < mkRat inter.length comparison_words.length)
    else false

/-- Embedding of `BoundaryGoldSetBuilder.classify_disagreement` (lines 283-293): the
two-way verdict, decided purely by sentence counts. -/
def classify_disagreement (seams_sentences comparison_sentences : List Str) : Str :=
  let seams_count := seams_sentences.length
  let comparison_count := comparison_sentences.length
  if seams_count < comparison_count then str "over_split"
  else if comparison_count < seams_count then str "under_split"
  else str "different_boundaries"

/-- Python `\w` character class (ASCII part). -/
def isWordChar (c : Char) : Bool := c.isAlphanum || c = '_'

/-- A `re`-style word-boundary match of the literal `w` at position `i` of `t`
(pattern `\b w \b`). -/
def matchesWordAt (w : Str) (t : Str) (i : Nat) : Bool :=
  (decide (i = 0) || !isWordChar (t.getD (i - 1) ' ')) &&
    decide ((t.drop i).take w.length = w) &&
    !isWordChar (t.getD (i + w.length) ' ')

/-- Search `re.search(\b w \b, t)`. -/
def searchWord (w : Str) (t : Str) : Bool :=
  (List.range t.length).any (matchesWordAt w t)

/-- One alternative of the abbreviation pattern
`\b(?:Mr|Mrs|Dr|etc|vs|i\.e|e\.g)\.|[A-Z]\.` matched at position `i`. -/
def abbrevAt (t : Str) (i : Nat) : Bool :=
  ((decide (i = 0) || !isWordChar (t.getD (i - 1) ' ')) &&
    [str "Mr", str "Mrs", str "Dr", str "etc", str "vs", str "i.e", str "e.g"].any
      (fun lit => decide ((t.drop i).take (lit.length + 1) = lit ++ ['.'])))
  || (decide ('A' ≤ t.getD i ' ' ∧ t.getD i ' ' ≤ 'Z') && decide (t.getD (i + 1) ' ' = '.'))

/-- Embedding of `BoundaryGoldSetBuilder.classify_complexity` (lines 295-310). -/
def classify_complexity (text : Str) : Str :=
  let tl := pyLower text
  if '"' ∈ text || '\'' ∈ text ||
      [str "said", str "asked", str "replied"].any (fun w => searchWord w tl) then
    str "dialog"
  else if (List.range text.length).any (abbrevAt text) then
    str "abbreviation"
  else if text.any (fun c => c ∈ [';', ':', '(', ')', '-']) ||
      pyInfixOf (str "however") tl || pyInfixOf (str "therefore") tl then
    str "complex"
  else str "normal"

/-- Embedding of `BoundaryGoldSetBuilder.get_nupunkt_pysbd_segmentations` (lines 312-332);
the external tokenizers are black-box collaborators `nseg`, `pseg` guarded by
the availability flags, a raising collaborator being the constant `[]`. -/
def get_nupunkt_pysbd_segmentations (navail pavail : Bool)
    (nseg pseg : Str → List Str) (original_text : Str) : List Str × List Str :=
  (if navail then ((nseg original_text).map pyStrip).filter (fun s => s ≠ []) else [],
   if pavail then ((pseg original_text).map pyStrip).filter (fun s => s ≠ []) else [])

/-- Embedding of `BoundaryGoldSetBuilder.should_filter_example` (lines 334-365). -/
def should_filter_example (navail pavail : Bool) (ex : BoundaryExample) : Bool :=
  let original_text := ex.original_text
  if !(original_text.any (fun c => 'a' ≤ c ∧ c ≤ 'z')) then true
  else if navail && pavail then
    let seams_sentences := (ex.seams_sentences.map pyStrip).filter (fun s => s ≠ [])
    let nupunkt_sentences := ex.nupunkt_sentences
    let pysbd_sentences := ex.pysbd_sentences
    if seams_sentences.length = nupunkt_sentences.length ∧
        nupunkt_sentences.length = pysbd_sentences.length ∧
        0 < seams_sentences.length then
      let normalizeJ := fun (ss : List Str) =>
        (pyLower (List.intercalate [' '] ss)).filter (fun c => c ≠ ' ')
      if normalizeJ seams_sentences = normalizeJ nupunkt_sentences ∧
          normalizeJ nupunkt_sentences = normalizeJ pysbd_sentences then true
      else false
    else false
  else false

/-- One iteration of the `for seams_start in range(0, len(seams_sentences) - 1, 2)`
loop of `BoundaryGoldSetBuilder.find_overlapping_regions` (lines 178-257); the
state is `(fast_idx, examples)`. -/
def find_overlapping_step (navail pavail : Bool) (nseg pseg : Str → List Str)
    (seams_sentences : List SentCoord) (comparison_sentences : List Str)
    (original_lines : List Str) (comparison_method : Str)
    (st : Nat × List BoundaryExample) (seams_start : Nat) :
    Nat × List BoundaryExample :=
  let fast_idx := st.1
  let seams_group := (seams_sentences.drop seams_start).take 3
  if seams_group = [] then st
  else
    let first_sent := seams_group.headI
    let last_sent := seams_group.getLastI
    let original_region := extract_original_region original_lines
      first_sent.start_line first_sent.start_col last_sent.end_line last_sent.end_col
    if original_region = [] ∨ original_region.length < 50 then st
    else
      let seams_texts := seams_group.map SentCoord.text
      let search_start := fast_idx - 5
      let search_end := min comparison_sentences.length (fast_idx + 20)
      let scan := (List.range' search_start (search_end - search_start)).foldl
        (fun (acc : List Str × Nat) i =>
          let comparison_sent := comparison_sentences.getD i []
          if sentences_overlap comparison_sent seams_texts original_region then
            (acc.1 ++ [comparison_sent], if fast_idx ≤ i then acc.2 + 1 else acc.2)
          else acc) ([], 0)
      let overlapping_comparison := scan.1
      let consumed_count := scan.2
      let fast_idx' := if 0 < consumed_count then fast_idx + consumed_count else fast_idx
      if overlapping_comparison.length ≠ seams_texts.length ∧ overlapping_comparison ≠ [] then
        let segs := get_nupunkt_pysbd_segmentations navail pavail nseg pseg
          (pyStrip original_region)
        let ex : BoundaryExample :=
          { original_text := pyStrip original_region
            seams_sentences := seams_texts
            comparison_sentences := overlapping_comparison
            comparison_method := comparison_method
            nupunkt_sentences := segs.1
            pysbd_sentences := segs.2
            source_file := []
            start_line := first_sent.start_line
            end_line := last_sent.end_line
            complexity := classify_complexity original_region
            disagreement_type := classify_disagreement seams_texts overlapping_comparison }
        if should_filter_example navail pavail ex = false then
          (fast_idx', st.2 ++ [ex])
        else (fast_idx', st.2)
      else (fast_idx', st.2)

/-- Embedding of `BoundaryGoldSetBuilder.find_overlapping_regions` (lines 178-257):
the full loop, `range(0, len - 1, 2)` becoming `List.range' 0 (len / 2) 2`. -/
def find_overlapping_regions (navail pavail : Bool) (nseg pseg : Str → List Str)
    (seams_sentences : List SentCoord) (comparison_sentences : List Str)
    (original_lines : List Str) (comparison_method : Str) : List BoundaryExample :=
  ((List.range' 0 (seams_sentences.length / 2) 2).foldl
    (find_overlapping_step navail pavail nseg pseg seams_sentences
      comparison_sentences original_lines comparison_method) (0, [])).2

end BoundaryGold

namespace BoundaryGold

/-- Stratification key `f"{comparison_method}_{disagreement_type}_{complexity}"`
(line 411). -/
def exampleKey (ex : BoundaryExample) : Str :=
  ex.comparison_method ++ '_' :: ex.disagreement_type ++ '_' :: ex.complexity

/-- Keys of Python's insertion-ordered `defaultdict`, in first-occurrence
order. -/
def firstKeys : List Str → List Str :=
  List.foldl (fun acc k => if k ∈ acc then acc else acc ++ [k]) []

/-- Deterministic generator step standing in for the process-wide `random`
state (a 64-bit linear congruential generator). -/
def lcgNext (g : Nat) : Nat :=
  (6364136223846793005 * g + 1442695040888963407) % (2 ^ 64)

/-- Model of `random.sample(xs, k)` for `k ≤ len(xs)` (and of
`random.shuffle` when `k = len(xs)`): `k` draws without replacement, the
generator choosing the index of each draw, returning the drawn elements in
draw order together with the advanced generator state. -/
def pySampleS {α : Type} [Inhabited α] : Nat → List α → Nat → List α × Nat
  | g, _, 0 => ([], g)
  | g, [], _ + 1 => ([], g)
  | g, x₀ :: t, k + 1 =>
    let xs := x₀ :: t
    let i := g % xs.length
    let x := xs.getD i default
    let rest := xs.take i ++ xs.drop (i + 1)
    let picked := pySampleS (lcgNext g) rest k
    (x :: picked.1, picked.2)

/-- One iteration of the per-category selection loop of the stratified
sampler (lines 414-421): `q` is the constant `target_size // len(examples_by_type)`. -/
def category_step (all_examples : List BoundaryExample) (q : Nat)
    (acc : List BoundaryExample × Nat) (key : Str) : List BoundaryExample × Nat :=
  let examples := all_examples.filter (fun ex => exampleKey ex = key)
  let sample_size := min examples.length q
  if examples ≠ [] then
    let drawn := pySampleS acc.2 examples (min sample_size examples.length)
    (acc.1 ++ drawn.1, drawn.2)
  else acc

/-- The top-up step of the stratified sampler (lines 424-429): when short of
the target, draw the shortfall from the candidates not already selected. -/
def top_up (all_examples : List BoundaryExample) (target_size : Nat)
    (fold : List BoundaryExample × Nat) : List BoundaryExample × Nat :=
  if fold.1.length < target_size then
    let remaining := all_examples.filter (fun ex => ex ∉ fold.1)
    let additional_needed := target_size - fold.1.length
    if remaining ≠ [] then
      let additional := pySampleS fold.2 remaining
        (min additional_needed remaining.length)
      (fold.1 ++ additional.1, additional.2)
    else fold
  else fold

/-- The stratified sampler of `build_boundary_gold_set` (lines 408-432):
group by key, draw `min(len(group), target_size // group_count)` from each
group, top up from the not-yet-selected remainder, shuffle, truncate. -/
def stratified_sample (g0 : Nat) (all_examples : List BoundaryExample)
    (target_size : Nat) : List BoundaryExample :=
  let keys := firstKeys (all_examples.map exampleKey)
  let fold := keys.foldl
    (category_step all_examples (target_size / keys.length)) ([], g0)
  let afterTopUp := top_up all_examples target_size fold
  let shuffled := pySampleS afterTopUp.2 afterTopUp.1 afterTopUp.1.length
  shuffled.1.take target_size

end BoundaryGold

/-! ### build_seams_disagreement_set.py -/

namespace SeamsDisagreement

/-- Embedding of `extract_original_text_from_coordinates` (lines 67-93): raw (untrimmed)
lines, original line breaks preserved; an index beyond the document raises
`IndexError`, which the `except` handler turns into `""`. -/
def extract_original_text_from_coordinates (lines : List Str)
    (start_line start_col end_line end_col : Nat) : Str :=
  let start_line_idx := start_line - 1
  let end_line_idx := end_line - 1
  let start_col_idx := start_col - 1
  let end_col_idx := end_col - 1
  if start_line_idx < lines.length ∧ end_line_idx < lines.length then
    if start_line_idx = end_line_idx then
      pySlice start_col_idx end_col_idx (lines.getD start_line_idx [])
    else
      (lines.getD start_line_idx []).drop start_col_idx
        ++ ((List.range' (start_line_idx + 1) (end_line_idx - (start_line_idx + 1))).map
              (fun j => lines.getD j [])).flatten
        ++ (lines.getD end_line_idx []).take end_col_idx
  else []

/-- Embedding of `normalize_for_comparison` (lines 144-148). -/
def normalize_for_comparison (text : Str) : Str :=
  pyStrip (List.intercalate [' '] (pySplitWs text))

/-- Embedding of `sentences_are_similar` (lines 151-170): count mismatch is decisive,
otherwise the normalized concatenations are compared by similarity score. -/
def sentences_are_similar (seams_sentences other_sentences : List Str)
    (threshold : ℚ) : Bool :=
  if seams_sentences.length ≠ other_sentences.length then false
  else
    let seams_text := List.intercalate [' ']
      (seams_sentences.map normalize_for_comparison)
    let other_text := List.intercalate [' ']
      (other_sentences.map normalize_for_comparison)
    decide (threshold ≤ sequenceMatcherScore seams_text other_text)

/-- Match of `re.search(r"'\w", text)` at position `i`. -/
def single_quote_word_at (text : Str) (i : Nat) : Bool :=
  decide (text.getD i ' ' = '\'') && BoundaryGold.isWordChar (text.getD (i + 1) ' ')

/-- Match of the dialog-attribution pattern
`"\s*[,;]\s*\w+\s+(said|asked|replied|shouted)` at position `i` of the
lower-cased text (the greedy `\s*`, `\w+`, `\s+` runs are forced because the
adjacent character classes are disjoint, so no backtracking can occur). -/
def dialog_attribution_at (tl : Str) (i : Nat) : Bool :=
  decide (tl.getD i ' ' = '"') &&
  (let j := i + 1 + ((tl.drop (i + 1)).takeWhile pyIsSpace).length
   (decide (tl.getD j ' ' = ',') || decide (tl.getD j ' ' = ';')) &&
   (let k := j + 1 + ((tl.drop (j + 1)).takeWhile pyIsSpace).length
    let w := (tl.drop k).takeWhile BoundaryGold.isWordChar
    decide (0 < w.length) &&
    (let m := k + w.length
     let sp := ((tl.drop m).takeWhile pyIsSpace).length
     decide (0 < sp) &&
     [str "said", str "asked", str "replied", str "shouted"].any (fun v =>
       decide ((tl.drop (m + sp)).take v.length = v)))))

/-- Match of the abbreviation pattern `\b[A-Z]\.\s*[A-Z]\.` at position `i`. -/
def double_abbrev_at (text : Str) (i : Nat) : Bool :=
  (decide (i = 0) || !BoundaryGold.isWordChar (text.getD (i - 1) ' ')) &&
  decide ('A' ≤ text.getD i ' ' ∧ text.getD i ' ' ≤ 'Z') &&
  decide (text.getD (i + 1) ' ' = '.') &&
  (let j := i + 2 + ((text.drop (i + 2)).takeWhile pyIsSpace).length
   decide ('A' ≤ text.getD j ' ' ∧ text.getD j ' ' ≤ 'Z') &&
   decide (text.getD (j + 1) ' ' = '.'))

/-- Match of the quote-parenthetical pattern `"\s*\([^)]*\)` at position `i`. -/
def quote_paren_at (text : Str) (i : Nat) : Bool :=
  decide (text.getD i ' ' = '"') &&
  (let j := i + 1 + ((text.drop (i + 1)).takeWhile pyIsSpace).length
   decide (text.getD j ' ' = '(') && decide (')' ∈ text.drop (j + 1)))

/-- Embedding of `analyze_text_complexity` (lines 173-205). -/
def analyze_text_complexity (text : Str) : List Str :=
  let tl := pyLower text
  (if '"' ∈ text then [str "double_quotes"] else [])
  ++ (if '\'' ∈ text ∧ (List.range text.length).any (single_quote_word_at text) then
      [str "single_quotes"] else [])
  ++ (if '(' ∈ text ∧ ')' ∈ text then [str "parenthetical"] else [])
  ++ (if (List.range tl.length).any (dialog_attribution_at tl) then
      [str "dialog_attribution"] else [])
  ++ (if pyInfixOf (str "\n\n") text then [str "hard_separator"] else [])
  ++ (if (List.range text.length).any (double_abbrev_at text) then
      [str "abbreviations"] else [])
  ++ (if pyInfixOf (str "...") text ∨ '—' ∈ text ∨ '–' ∈ text then
      [str "complex_punctuation"] else [])
  ++ (if (List.range text.length).any (quote_paren_at text) then
      [str "quote_parenthetical"] else [])

/-- Embedding of `classify_disagreement` (lines 208-225): the three-way verdict from the
three pairwise `sentences_are_similar` results at the default 0.9 threshold. -/
def classify_disagreement (seams_sentences pysbd_sentences nupunkt_sentences :
    List Str) : Str :=
  let seams_vs_pysbd := !(sentences_are_similar seams_sentences pysbd_sentences (mkRat 9 10))
  let seams_vs_nupunkt := !(sentences_are_similar seams_sentences nupunkt_sentences (mkRat 9 10))
  let pysbd_vs_nupunkt := !(sentences_are_similar pysbd_sentences nupunkt_sentences (mkRat 9 10))
  if seams_vs_pysbd && seams_vs_nupunkt && !pysbd_vs_nupunkt then str "seams_vs_both"
  else if seams_vs_pysbd && !seams_vs_nupunkt then str "seams_vs_pysbd"
  else if seams_vs_nupunkt && !seams_vs_pysbd then str "seams_vs_nupunkt"
  else if seams_vs_pysbd && seams_vs_nupunkt && pysbd_vs_nupunkt then str "all_disagree"
  else str "no_disagreement"

/-- Embedding of `segment_with_pysbd` (lines 124-131) around a black-box collaborator. -/
def segment_with_pysbd (pseg : Str → List Str) (text : Str) : List Str :=
  ((pseg text).map pyStrip).filter (fun s => s ≠ [])

/-- Embedding of `segment_with_nupunkt` (lines 134-141) around a black-box collaborator. -/
def segment_with_nupunkt (nseg : Str → List Str) (text : Str) : List Str :=
  ((nseg text).map pyStrip).filter (fun s => s ≠ [])

/-- Body of one iteration of the region loop of
`find_disagreements_in_file_pair` (lines 245-305). -/
def process_region (lines : List Str) (source_file : Str)
    (pseg nseg : Str → List Str) (seams_data : List SentCoord) (i : Nat) :
    List SeamsDisagreement :=
  let region_sentences := (seams_data.drop i).take 3
  let first_sentence := region_sentences.headI
  let last_sentence := region_sentences.getLastI
  let original_text := extract_original_text_from_coordinates lines
    first_sentence.start_line first_sentence.start_col
    last_sentence.end_line last_sentence.end_col
  if original_text = [] ∨ (pyStrip original_text).length < 20 then []
  else
    let seams_sentences := region_sentences.map SentCoord.text
    let pysbd_sentences := segment_with_pysbd pseg original_text
    let nupunkt_sentences := segment_with_nupunkt nseg original_text
    if pysbd_sentences = [] ∨ nupunkt_sentences = [] then []
    else
      let disagreement_type := classify_disagreement seams_sentences
        pysbd_sentences nupunkt_sentences
      if disagreement_type = str "seams_vs_both" ∨
          disagreement_type = str "seams_vs_pysbd" ∨
          disagreement_type = str "seams_vs_nupunkt" then
        [{ original_text := original_text
           seams_sentences := seams_sentences
           pysbd_sentences := pysbd_sentences
           nupunkt_sentences := nupunkt_sentences
           disagreement_type := disagreement_type
           source_file := source_file
           text_region_start := i
           text_region_end := i + 3
           complexity_indicators := analyze_text_complexity original_text }]
      else []

/-- Embedding of `find_disagreements_in_file_pair` (lines 228-307): the loop
`for i in range(0, len(seams_data) - region_size + 1, region_size)` with
`region_size = 3` becomes `List.range' 0 (len / 3) 3`. -/
def find_disagreements_in_file_pair (lines : List Str) (source_file : Str)
    (pseg nseg : Str → List Str) (seams_data : List SentCoord) :
    List SeamsDisagreement :=
  (List.range' 0 (seams_data.length / 3) 3).flatMap
    (process_region lines source_file pseg nseg seams_data)

end SeamsDisagreement

/-! ### find_seams_differences.py -/

namespace SeamsDifferences

/-- Embedding of `extract_original_text_from_coordinates` (lines 61-87): a verbatim copy
of the function of the same name in build_seams_disagreement_set.py. -/
def extract_original_text_from_coordinates (lines : List Str)
    (start_line start_col end_line end_col : Nat) : Str :=
  let start_line_idx := start_line - 1
  let end_line_idx := end_line - 1
  let start_col_idx := start_col - 1
  let end_col_idx := end_col - 1
  if start_line_idx < lines.length ∧ end_line_idx < lines.length then
    if start_line_idx = end_line_idx then
      pySlice start_col_idx end_col_idx (lines.getD start_line_idx [])
    else
      (lines.getD start_line_idx []).drop start_col_idx
        ++ ((List.range' (start_line_idx + 1) (end_line_idx - (start_line_idx + 1))).map
              (fun j => lines.getD j [])).flatten
        ++ (lines.getD end_line_idx []).take end_col_idx
  else []

/-- Embedding of `normalize_text` (lines 138-140). -/
def normalize_text (text : Str) : Str :=
  pyStrip (List.intercalate [' '] (pySplitWs text))

/-- Embedding of `segmentations_differ` (lines 143-153): count mismatch is decisive,
otherwise the normalized concatenations are compared for exact equality. -/
def segmentations_differ (seams_sentences other_sentences : List Str) : Bool :=
  if seams_sentences.length ≠ other_sentences.length then true
  else
    let seams_text := List.intercalate [' '] (seams_sentences.map normalize_text)
    let other_text := List.intercalate [' '] (other_sentences.map normalize_text)
    decide (seams_text ≠ other_text)

/-- Match of the dialog-attribution tail pattern
`(said|asked|replied|shouted|whispered)[.!?]?\s*$` of
`find_natural_text_boundaries` against the lower-cased sentence. -/
def ends_with_attribution (s : Str) : Bool :=
  let t := pyLower s
  let t1 := List.rdropWhile pyIsSpace t
  let verbs := [str "said", str "asked", str "replied", str "shouted", str "whispered"]
  verbs.any (fun v => decide (v <:+ t1)) ||
    ((t1.getLastD ' ' = '.' || t1.getLastD ' ' = '!' || t1.getLastD ' ' = '?') &&
      verbs.any (fun v => decide (v <:+ t1.dropLast)))

/-- The chunk-break test of the inner `while` of `find_natural_text_boundaries`
(lines 166-189), for the sentence at index `i` of a chunk started at
`start_idx`: paragraph gap, dialog attribution, closing quote, or the
10-sentence cap. -/
def boundary_break (seams_data : List SentCoord) (start_idx i : Nat) : Bool :=
  let current := seams_data.getD i default
  let next := seams_data.getD (i + 1) default
  decide (current.end_line + 1 < next.start_line) ||
    ends_with_attribution current.text ||
    (decide (current.text.getLastD ' ' = '"') && !decide (next.text.headI = '"')) ||
    decide (10 ≤ i - start_idx)

/-- The inner `while i < len(seams_data) - 1` loop of
`find_natural_text_boundaries`: advance `i` until a break fires (the fuel
dominates the at most `len - 1 - i` iterations the loop can make). -/
def inner_advance (seams_data : List SentCoord) (start_idx : Nat) :
    Nat → Nat → Nat
  | 0, i => i
  | fuel + 1, i =>
    if i < seams_data.length - 1 then
      if boundary_break seams_data start_idx i then i
      else inner_advance seams_data start_idx fuel (i + 1)
    else i

/-- End index of the chunk started at `i`: where the inner loop stops, bumped
by one when no progress was made (`if i == start_idx: i += 1`). -/
def chunk_end (seams_data : List SentCoord) (i : Nat) : Nat :=
  let fi := inner_advance seams_data i seams_data.length i
  if fi = i then fi + 1 else fi

/-- The outer `while i < len(seams_data)` loop of
`find_natural_text_boundaries` (each chunk consumes at least one sentence,
so `len` iterations of fuel always suffice). -/
def boundaries_from (seams_data : List SentCoord) : Nat → Nat → List (Nat × Nat)
  | 0, _ => []
  | fuel + 1, i =>
    if i < seams_data.length then
      (i, chunk_end seams_data i) :: boundaries_from seams_data fuel (chunk_end seams_data i)
    else []

/-- Embedding of `find_natural_text_boundaries` (lines 156-198). -/
def find_natural_text_boundaries (seams_data : List SentCoord) : List (Nat × Nat) :=
  boundaries_from seams_data seams_data.length 0

/-- Embedding of `segment_with_pysbd` (lines 118-125) around a black-box collaborator. -/
def segment_with_pysbd (pseg : Str → List Str) (text : Str) : List Str :=
  ((pseg text).map pyStrip).filter (fun s => s ≠ [])

/-- Embedding of `segment_with_nupunkt` (lines 128-135) around a black-box collaborator. -/
def segment_with_nupunkt (nseg : Str → List Str) (text : Str) : List Str :=
  ((nseg text).map pyStrip).filter (fun s => s ≠ [])

/-- Body of one iteration of the chunk loop of
`find_differences_in_file_pair` (lines 219-273). -/
def process_chunk (lines : List Str) (source_file : Str)
    (pseg nseg : Str → List Str) (seams_data : List SentCoord)
    (bounds : Nat × Nat) : List SeamsDifference :=
  let chunk_sentences := (seams_data.drop bounds.1).take (bounds.2 - bounds.1)
  let first_sentence := chunk_sentences.headI
  let last_sentence := chunk_sentences.getLastI
  let original_text := extract_original_text_from_coordinates lines
    first_sentence.start_line first_sentence.start_col
    last_sentence.end_line last_sentence.end_col
  if original_text = [] ∨ (pyStrip original_text).length < 10 then []
  else
    let seams_sentences := chunk_sentences.map SentCoord.text
    let pysbd_sentences := segment_with_pysbd pseg original_text
    let nupunkt_sentences := segment_with_nupunkt nseg original_text
    if pysbd_sentences = [] ∨ nupunkt_sentences = [] then []
    else
      let differs_from_pysbd := segmentations_differ seams_sentences pysbd_sentences
      let differs_from_nupunkt := segmentations_differ seams_sentences nupunkt_sentences
      if differs_from_pysbd || differs_from_nupunkt then
        [{ original_text := original_text
           seams_sentences := seams_sentences
           pysbd_sentences := pysbd_sentences
           nupunkt_sentences := nupunkt_sentences
           source_file := source_file
           text_start_line := first_sentence.start_line
           text_start_col := first_sentence.start_col
           text_end_line := last_sentence.end_line
           text_end_col := last_sentence.end_col
           differs_from_pysbd := differs_from_pysbd
           differs_from_nupunkt := differs_from_nupunkt }]
      else []

/-- Embedding of `find_differences_in_file_pair` (lines 201-274). -/
def find_differences_in_file_pair (lines : List Str) (source_file : Str)
    (pseg nseg : Str → List Str) (seams_data : List SentCoord) :
    List SeamsDifference :=
  (find_natural_text_boundaries seams_data).flatMap
    (process_chunk lines source_file pseg nseg seams_data)

end SeamsDifferences

/-- Predicate: `bs` is a contiguous ordered partition of the index interval
`[start, stop)`: every index is covered by exactly one `(s, e)` pair, the
pairs abut and appear in order, and every pair is non-empty. -/
def isPartitionFrom : Nat → List (Nat × Nat) → Nat → Bool
  | start, [], stop => decide (start = stop)
  | start, (s, e) :: rest, stop =>
    decide (s = start) && decide (start < e) && isPartitionFrom e rest stop

/-! ### Helper lemmas -/

theorem pyTake_append (p t : Str) (n : Nat) (h : n ≤ p.length) :
    (p ++ t).take n = p.take n := by
  induction p generalizing n with
  | nil => simp at h; simp [h]
  | cons x p ih =>
    cases n with
    | zero => simp
    | succ n => simp only [List.cons_append, List.take_succ_cons]
                exact congrArg (x :: ·) (ih n (by simpa using h))

theorem pyDrop_append (p t : Str) (n : Nat) (h : n ≤ p.length) :
    (p ++ t).drop n = p.drop n ++ t := by
  induction p generalizing n with
  | nil => simp at h; simp [h]
  | cons x p ih =>
    cases n with
    | zero => simp
    | succ n => simp only [List.cons_append, List.drop_succ_cons]
                exact ih n (by simpa using h)

/-- Slicing below the length of a prefix ignores the appended tail. -/
theorem pySlice_append (p t : Str) (a b : Nat) (h : b ≤ p.length) :
    pySlice a b (p ++ t) = pySlice a b p := by
  unfold pySlice
  by_cases hab : b ≤ a
  · simp [Nat.sub_eq_zero_of_le hab]
  · have ha : a ≤ p.length := by omega
    rw [pyDrop_append p t a ha]
    have : b - a ≤ (p.drop a).length := by simp [List.length_drop]; omega
    exact pyTake_append _ _ _ this

/-- The `rstrip` decomposition: the stripped string is a prefix of the original. -/
theorem rstripNR_decomp (s : Str) : ∃ u, s = rstripNR s ++ u := by
  have h : rstripNR s <+: s := by
    unfold rstripNR; exact List.rdropWhile_prefix _ s
  obtain ⟨u, hu⟩ := h
  exact ⟨u, hu.symm⟩

/-- Count mismatch forces `sentences_are_similar` to `false`, at every
threshold. -/
theorem sim_false_of_length_ne (threshold : ℚ) (a b : List Str)
    (h : a.length ≠ b.length) :
    SeamsDisagreement.sentences_are_similar a b threshold = false := by
  simp [SeamsDisagreement.sentences_are_similar, h]

/-! ### C1: two-way classifier -/

/-- C1 (corrected), amended claim: the two-way classifier decides purely by
sentence counts: `over_split` iff the comparison list is strictly longer
(in which case the lists are also never equivalent), `under_split` iff it is
strictly shorter (likewise), and `different_boundaries` iff the counts are
equal — whether or not the lists are equivalent; a `no_disagreement` verdict
is never produced. -/
theorem two_way_classifier_counts (primary other : List Str) :
    (BoundaryGold.classify_disagreement primary other = str "over_split" ↔
      primary.length < other.length ∧
        SeamsDisagreement.sentences_are_similar primary other (mkRat 9 10) = false) ∧
    (BoundaryGold.classify_disagreement primary other = str "under_split" ↔
      other.length < primary.length ∧
        SeamsDisagreement.sentences_are_similar primary other (mkRat 9 10) = false) ∧
    (BoundaryGold.classify_disagreement primary other = str "different_boundaries" ↔
      primary.length = other.length) ∧
    BoundaryGold.classify_disagreement primary other ≠ str "no_disagreement" := by
  rcases Nat.lt_trichotomy primary.length other.length with h | h | h
  · have hc : BoundaryGold.classify_disagreement primary other = str "over_split" := by
      unfold BoundaryGold.classify_disagreement
      rw [if_pos h]
    have hs := sim_false_of_length_ne (mkRat 9 10) primary other (Nat.ne_of_lt h)
    rw [hc]
    refine ⟨⟨fun _ => ⟨h, hs⟩, fun _ => rfl⟩, ?_, ?_, by decide⟩
    · exact ⟨fun he => absurd he (by decide), fun ⟨h2, _⟩ => absurd h2 (by omega)⟩
    · exact ⟨fun he => absurd he (by decide), fun h2 => absurd h2 (by omega)⟩
  · have hc : BoundaryGold.classify_disagreement primary other
        = str "different_boundaries" := by
      unfold BoundaryGold.classify_disagreement
      rw [if_neg (by omega), if_neg (by omega)]
    rw [hc]
    refine ⟨?_, ?_, ⟨fun _ => h, fun _ => rfl⟩, by decide⟩
    · exact ⟨fun he => absurd he (by decide), fun ⟨h2, _⟩ => absurd h2 (by omega)⟩
    · exact ⟨fun he => absurd he (by decide), fun ⟨h2, _⟩ => absurd h2 (by omega)⟩
  · have hc : BoundaryGold.classify_disagreement primary other = str "under_split" := by
      unfold BoundaryGold.classify_disagreement
      rw [if_neg (by omega), if_pos h]
    have hs := sim_false_of_length_ne (mkRat 9 10) primary other (by omega)
    rw [hc]
    refine ⟨?_, ⟨fun _ => ⟨h, hs⟩, fun _ => rfl⟩, ?_, by decide⟩
    · exact ⟨fun he => absurd he (by decide), fun ⟨h2, _⟩ => absurd h2 (by omega)⟩
    · exact ⟨fun he => absurd he (by decide), fun h2 => absurd h2 (by omega)⟩

/-- C1 counterexample: on two equivalent singleton lists the classifier
returns `different_boundaries`, not the `no_disagreement` the claim
requires for equivalent lists. -/
theorem two_way_classifier_counterexample :
    SeamsDisagreement.sentences_are_similar [str "a"] [str "a"] (mkRat 9 10) = true ∧
    BoundaryGold.classify_disagreement [str "a"] [str "a"] = str "different_boundaries" ∧
    BoundaryGold.classify_disagreement [str "a"] [str "a"] ≠ str "no_disagreement" := by
  refine ⟨by decide, by decide, by decide⟩

/-! ### C2: three-way classifier -/

/-- C2: the three-way classifier returns `seams_vs_both` (the spec's
`PRIMARY_VS_BOTH`) exactly when the primary list is equivalent to neither
reference while the two references are equivalent to each other, all under
the pairwise equivalence test at the default 0.9 threshold; in particular
it does so when the two references agree and the primary splits the region
differently. -/
theorem three_way_classifier_primary_vs_both :
    (∀ primary ref_a ref_b : List Str,
      SeamsDisagreement.classify_disagreement primary ref_a ref_b = str "seams_vs_both" ↔
        SeamsDisagreement.sentences_are_similar primary ref_a (mkRat 9 10) = false ∧
        SeamsDisagreement.sentences_are_similar primary ref_b (mkRat 9 10) = false ∧
        SeamsDisagreement.sentences_are_similar ref_a ref_b (mkRat 9 10) = true) ∧
    SeamsDisagreement.classify_disagreement
      [str "a b.", str "c."] [str "a b. c."]
      [str "a b. c."] = str "seams_vs_both" := by
  constructor
  · intro primary ref_a ref_b
    unfold SeamsDisagreement.classify_disagreement
    cases h1 : SeamsDisagreement.sentences_are_similar primary ref_a (mkRat 9 10) <;>
      cases h2 : SeamsDisagreement.sentences_are_similar primary ref_b (mkRat 9 10) <;>
        cases h3 : SeamsDisagreement.sentences_are_similar ref_a ref_b (mkRat 9 10) <;>
          simp [h1, h2, h3] <;> decide
  · decide

/-! ### C3: count mismatch is decisive -/

/-- C3: for lists of different lengths the equivalence test is `false` at
every threshold (the count check precedes any similarity computation, so the
outcome is independent of the texts), and `segmentations_differ` likewise
reports a difference. -/
theorem count_mismatch_never_equivalent (threshold : ℚ) (a b : List Str)
    (h : a.length ≠ b.length) :
    SeamsDisagreement.sentences_are_similar a b threshold = false ∧
    SeamsDifferences.segmentations_differ a b = true := by
  constructor
  · exact sim_false_of_length_ne threshold a b h
  · simp [SeamsDifferences.segmentations_differ, h]

/-- C3 witness: `["x y"]` versus `["x", "y"]` have identical normalized
concatenations yet are judged non-equivalent because the counts differ. -/
theorem count_mismatch_never_equivalent_witness :
    ([str "x y"] : List Str).length ≠ ([str "x", str "y"] : List Str).length ∧
    List.intercalate [' '] ([str "x y"].map SeamsDisagreement.normalize_for_comparison)
      = List.intercalate [' ']
          ([str "x", str "y"].map SeamsDisagreement.normalize_for_comparison) ∧
    SeamsDisagreement.sentences_are_similar [str "x y"] [str "x", str "y"]
      (mkRat 9 10) = false ∧
    SeamsDifferences.segmentations_differ [str "x y"] [str "x", str "y"] = true :=
  ⟨by decide, by decide,
   (count_mismatch_never_equivalent (mkRat 9 10) _ _ (by decide)).1,
   (count_mismatch_never_equivalent (mkRat 9 10) _ _ (by decide)).2⟩

/-! ### C4: same-line extraction -/

/-- C4: for a same-line span `(l, sc, l, ec)` inside the document whose end
column stays within the separator-trimmed line, both extraction operations
return exactly `line[sc-1 : ec-1]` of that trimmed line. -/
theorem same_line_extraction (lines : List Str) (l sc ec : Nat)
    (h1 : 1 ≤ l) (h2 : l ≤ lines.length) (h3 : 1 ≤ sc)
    (h4 : ec - 1 ≤ (rstripNR (lines.getD (l - 1) [])).length) :
    BoundaryGold.extract_original_region lines l sc l ec
        = pySlice (sc - 1) (ec - 1) (rstripNR (lines.getD (l - 1) [])) ∧
    SeamsDisagreement.extract_original_text_from_coordinates lines l sc l ec
        = pySlice (sc - 1) (ec - 1) (rstripNR (lines.getD (l - 1) [])) := by
  constructor
  · unfold BoundaryGold.extract_original_region
    rw [if_neg (by omega)]
    simp only [if_true]
    rw [if_pos h4]
  · unfold SeamsDisagreement.extract_original_text_from_coordinates
    rw [if_pos (by omega : l - 1 < lines.length ∧ l - 1 < lines.length), if_pos rfl]
    obtain ⟨u, hu⟩ := rstripNR_decomp (lines.getD (l - 1) [])
    calc pySlice (sc - 1) (ec - 1) (lines.getD (l - 1) [])
        = pySlice (sc - 1) (ec - 1) (rstripNR (lines.getD (l - 1) []) ++ u) := by rw [← hu]
      _ = pySlice (sc - 1) (ec - 1) (rstripNR (lines.getD (l - 1) [])) :=
          pySlice_append _ _ _ _ h4

/-- C4 witness: line 3 of the document is `"The quick brown fox"`, and the
span `(3,1,3,4)` extracts `"The"` under both operations. -/
theorem same_line_extraction_witness :
    BoundaryGold.extract_original_region
        [str "line one\n", str "line two\n", str "The quick brown fox\n"] 3 1 3 4
      = str "The" ∧
    SeamsDisagreement.extract_original_text_from_coordinates
        [str "line one\n", str "line two\n", str "The quick brown fox\n"] 3 1 3 4
      = str "The" := by
  have h := same_line_extraction
    [str "line one\n", str "line two\n", str "The quick brown fox\n"] 3 1 4
    (by decide) (by decide) (by decide) (by decide)
  exact ⟨h.1.trans (by decide), h.2.trans (by decide)⟩

/-! ### C5: multi-line verbatim extraction -/

theorem splitOnNl_ne_nil (t : Str) : splitOnNl t ≠ [] := by
  cases t with
  | nil => simp [splitOnNl]
  | cons c t =>
    unfold splitOnNl
    by_cases h : c = '\n' <;> simp [h]

theorem splitOnNl_no_nl (xs : Str) (h : '\n' ∉ xs) : splitOnNl xs = [xs] := by
  induction xs with
  | nil => rfl
  | cons c t ih =>
    have hc : c ≠ '\n' := fun hc => h (hc ▸ List.mem_cons_self c t)
    have ht : '\n' ∉ t := fun hm => h (List.mem_cons_of_mem c hm)
    unfold splitOnNl
    rw [if_neg hc, ih ht]
    rfl

theorem splitOnNl_append_nl (xs ys : Str) (h : '\n' ∉ xs) :
    splitOnNl (xs ++ '\n' :: ys) = xs :: splitOnNl ys := by
  induction xs with
  | nil => simp [splitOnNl]
  | cons c t ih =>
    have hc : c ≠ '\n' := fun hc => h (hc ▸ List.mem_cons_self c t)
    have ht : '\n' ∉ t := fun hm => h (List.mem_cons_of_mem c hm)
    rw [List.cons_append]
    show (if c = '\n' then [] :: splitOnNl (t ++ '\n' :: ys)
          else (c :: (splitOnNl (t ++ '\n' :: ys)).headI)
            :: (splitOnNl (t ++ '\n' :: ys)).tail)
        = (c :: t) :: splitOnNl ys
    rw [if_neg hc, ih ht]
    rfl

theorem splitOnNl_flatten_clean (ms : List Str) (tail : Str)
    (h : ∀ m ∈ ms, ∃ c, m = c ++ ['\n'] ∧ '\n' ∉ c) :
    splitOnNl (ms.flatten ++ tail) = ms.map List.dropLast ++ splitOnNl tail := by
  induction ms with
  | nil => simp
  | cons m ms ih =>
    obtain ⟨c, hm, hc⟩ := h m (List.mem_cons_self m ms)
    have hrest : ∀ m' ∈ ms, ∃ c, m' = c ++ ['\n'] ∧ '\n' ∉ c :=
      fun m' hm' => h m' (List.mem_cons_of_mem m hm')
    have hre : ((c ++ ['\n']) ++ ms.flatten) ++ tail
        = c ++ '\n' :: (ms.flatten ++ tail) := by simp
    rw [List.flatten_cons, hm, hre]
    rw [splitOnNl_append_nl c (ms.flatten ++ tail) hc]
    rw [ih hrest]
    simp [hm]

/-- C5: a multi-line verbatim extraction, re-split on line breaks, gives
back exactly the first line's suffix from `start_col`, each interior line in
full, and the last line's prefix up to `end_col` — the original line breaks
separate them and no artificial characters are introduced.  Both duplicated
copies of `extract_original_text_from_coordinates` are covered. -/
theorem multi_line_verbatim_extraction (lines : List Str) (sl sc el ec : Nat)
    (h1 : 1 ≤ sl) (h2 : sl < el) (h3 : el ≤ lines.length)
    (hclean : ∀ i ∈ List.range' (sl - 1) (el - 1 - (sl - 1)),
      ∃ c, lines.getD i [] = c ++ ['\n'] ∧ '\n' ∉ c)
    (hsc : sc - 1 ≤ (lines.getD (sl - 1) []).dropLast.length)
    (hec : '\n' ∉ (lines.getD (el - 1) []).take (ec - 1)) :
    splitOnNl (SeamsDisagreement.extract_original_text_from_coordinates
        lines sl sc el ec)
      = ((lines.getD (sl - 1) []).dropLast.drop (sc - 1))
          :: ((List.range' sl (el - 1 - sl)).map (fun j => (lines.getD j []).dropLast)
              ++ [(lines.getD (el - 1) []).take (ec - 1)]) ∧
    splitOnNl (SeamsDifferences.extract_original_text_from_coordinates
        lines sl sc el ec)
      = ((lines.getD (sl - 1) []).dropLast.drop (sc - 1))
          :: ((List.range' sl (el - 1 - sl)).map (fun j => (lines.getD j []).dropLast)
              ++ [(lines.getD (el - 1) []).take (ec - 1)]) := by
  have hfirstmem : sl - 1 ∈ List.range' (sl - 1) (el - 1 - (sl - 1)) := by
    rw [List.mem_range'_1]
    omega
  obtain ⟨c₁, hfirst, hc₁⟩ := hclean (sl - 1) hfirstmem
  have hdropLast : (lines.getD (sl - 1) []).dropLast = c₁ := by
    rw [hfirst, List.dropLast_concat]
  have hmain : splitOnNl (SeamsDisagreement.extract_original_text_from_coordinates
      lines sl sc el ec)
      = ((lines.getD (sl - 1) []).dropLast.drop (sc - 1))
          :: ((List.range' sl (el - 1 - sl)).map (fun j => (lines.getD j []).dropLast)
              ++ [(lines.getD (el - 1) []).take (ec - 1)]) := by
    unfold SeamsDisagreement.extract_original_text_from_coordinates
    rw [if_pos (by omega : sl - 1 < lines.length ∧ el - 1 < lines.length),
      if_neg (by omega : ¬ sl - 1 = el - 1)]
    have hidx : sl - 1 + 1 = sl := by omega
    rw [hidx]
    have hdrop : (lines.getD (sl - 1) []).drop (sc - 1)
        = c₁.drop (sc - 1) ++ ['\n'] := by
      rw [hfirst]
      exact pyDrop_append c₁ ['\n'] (sc - 1) (hdropLast ▸ hsc)
    rw [hdrop, hdropLast]
    rw [List.append_assoc, List.append_assoc, List.singleton_append]
    have hnl : '\n' ∉ c₁.drop (sc - 1) := fun hm => hc₁ (List.drop_subset _ _ hm)
    rw [splitOnNl_append_nl _ _ hnl]
    have hmids : ∀ m ∈ (List.range' sl (el - 1 - sl)).map (fun j => lines.getD j []),
        ∃ c, m = c ++ ['\n'] ∧ '\n' ∉ c := by
      intro m hm
      rw [List.mem_map] at hm
      obtain ⟨j, hj, rfl⟩ := hm
      rw [List.mem_range'_1] at hj
      refine hclean j ?_
      rw [List.mem_range'_1]
      omega
    rw [splitOnNl_flatten_clean _ _ hmids, splitOnNl_no_nl _ hec, List.map_map]
    rfl
  exact ⟨hmain, by
    rw [show SeamsDifferences.extract_original_text_from_coordinates lines sl sc el ec
        = SeamsDisagreement.extract_original_text_from_coordinates lines sl sc el ec
      from rfl]
    exact hmain⟩

/-- C5 witness: document `["ab\n", "cd\n", "ef\n"]`, span `(1,2,3,2)`: the
verbatim extraction is `"b\ncd\ne"`, which re-splits into the first-line
suffix `"b"`, the full interior line `"cd"` and the last-line prefix `"e"`. -/
theorem multi_line_verbatim_extraction_witness :
    splitOnNl (SeamsDisagreement.extract_original_text_from_coordinates
        [str "ab\n", str "cd\n", str "ef\n"] 1 2 3 2)
      = [str "b", str "cd", str "e"] ∧
    splitOnNl (SeamsDifferences.extract_original_text_from_coordinates
        [str "ab\n", str "cd\n", str "ef\n"] 1 2 3 2)
      = [str "b", str "cd", str "e"] := by
  have h := multi_line_verbatim_extraction [str "ab\n", str "cd\n", str "ef\n"] 1 2 3 2
    (by decide) (by decide) (by decide)
    (by
      intro i hi
      have : i = 0 ∨ i = 1 := by
        rw [List.mem_range'_1] at hi
        omega
      rcases this with rfl | rfl
      · exact ⟨str "ab", by decide, by decide⟩
      · exact ⟨str "cd", by decide, by decide⟩)
    (by decide) (by decide)
  exact ⟨h.1.trans (by decide), h.2.trans (by decide)⟩

/-! ### C6: records are retained only on disagreement -/

/-- A retained three-way verdict forces at least one of the two
seams-versus-reference equivalence tests to fail. -/
theorem classify3_retained_not_similar (s p n : List Str)
    (h : SeamsDisagreement.classify_disagreement s p n = str "seams_vs_both" ∨
         SeamsDisagreement.classify_disagreement s p n = str "seams_vs_pysbd" ∨
         SeamsDisagreement.classify_disagreement s p n = str "seams_vs_nupunkt") :
    SeamsDisagreement.sentences_are_similar s p (mkRat 9 10) = false ∨
    SeamsDisagreement.sentences_are_similar s n (mkRat 9 10) = false := by
  cases h1 : SeamsDisagreement.sentences_are_similar s p (mkRat 9 10)
  · exact Or.inl rfl
  · cases h2 : SeamsDisagreement.sentences_are_similar s n (mkRat 9 10)
    · exact Or.inr rfl
    · exfalso
      have hc : SeamsDisagreement.classify_disagreement s p n = str "no_disagreement" := by
        unfold SeamsDisagreement.classify_disagreement
        rw [h1, h2]
        simp
      rw [hc] at h
      rcases h with h | h | h <;> exact absurd h (by decide)

/-- C6: in both per-file analysis loops, a record is accumulated for export
only when at least one reference method's segmentation of the region is
judged non-equivalent to the seams segmentation: in
build_seams_disagreement_set.py the stored sentence lists fail at least one
pairwise equivalence test against the seams list, and in
find_seams_differences.py the stored difference flags are exactly the
`segmentations_differ` results and at least one of them is set.  When every
reference is judged equivalent, the verdict is `no_disagreement` (or the
difference flags are both false) and no record is produced. -/
theorem records_only_when_not_equivalent :
    (∀ (lines : List Str) (source_file : Str) (pseg nseg : Str → List Str)
        (seams_data : List SentCoord) (rec : SeamsDisagreement),
      rec ∈ SeamsDisagreement.find_disagreements_in_file_pair lines source_file
          pseg nseg seams_data →
        SeamsDisagreement.sentences_are_similar rec.seams_sentences
          rec.pysbd_sentences (mkRat 9 10) = false ∨
        SeamsDisagreement.sentences_are_similar rec.seams_sentences
          rec.nupunkt_sentences (mkRat 9 10) = false) ∧
    (∀ (lines : List Str) (source_file : Str) (pseg nseg : Str → List Str)
        (seams_data : List SentCoord) (rec : SeamsDifference),
      rec ∈ SeamsDifferences.find_differences_in_file_pair lines source_file
          pseg nseg seams_data →
        (rec.differs_from_pysbd = true ∨ rec.differs_from_nupunkt = true) ∧
        rec.differs_from_pysbd = SeamsDifferences.segmentations_differ
          rec.seams_sentences rec.pysbd_sentences ∧
        rec.differs_from_nupunkt = SeamsDifferences.segmentations_differ
          rec.seams_sentences rec.nupunkt_sentences) := by
  constructor
  · intro lines source_file pseg nseg seams_data rec hmem
    unfold SeamsDisagreement.find_disagreements_in_file_pair at hmem
    rw [List.mem_flatMap] at hmem
    obtain ⟨i, _, hmem⟩ := hmem
    simp only [SeamsDisagreement.process_region] at hmem
    split_ifs at hmem with hg1 hg2 hg3
    · exact absurd hmem (List.not_mem_nil rec)
    · exact absurd hmem (List.not_mem_nil rec)
    · rw [List.mem_singleton] at hmem
      subst hmem
      exact classify3_retained_not_similar _ _ _ hg3
    · exact absurd hmem (List.not_mem_nil rec)
  · intro lines source_file pseg nseg seams_data rec hmem
    unfold SeamsDifferences.find_differences_in_file_pair at hmem
    rw [List.mem_flatMap] at hmem
    obtain ⟨bounds, _, hmem⟩ := hmem
    simp only [SeamsDifferences.process_chunk] at hmem
    split_ifs at hmem with hg1 hg2 hg3
    · exact absurd hmem (List.not_mem_nil rec)
    · exact absurd hmem (List.not_mem_nil rec)
    · rw [List.mem_singleton] at hmem
      subst hmem
      refine ⟨?_, rfl, rfl⟩
      rcases Bool.or_eq_true_iff.mp hg3 with h | h
      · exact Or.inl h
      · exact Or.inr h
    · exact absurd hmem (List.not_mem_nil rec)

/-- Concrete run of `find_disagreements_in_file_pair` producing one record
(three seams sentences against single-sentence reference segmentations). -/
def sampleDisagreementRecord : SeamsDisagreement :=
  (SeamsDisagreement.find_disagreements_in_file_pair
    [str "abcd efgh ijkl mnopq\n"] (str "src")
    (fun _ => [str "x"]) (fun _ => [str "x"])
    [⟨str "t1", 1, 1, 1, 7⟩, ⟨str "t2", 1, 8, 1, 14⟩, ⟨str "t3", 1, 15, 1, 21⟩]).headI

/-- C6 witness: the record produced by the concrete run indeed fails an
equivalence test against one of its reference lists. -/
theorem records_only_when_not_equivalent_witness :
    SeamsDisagreement.sentences_are_similar sampleDisagreementRecord.seams_sentences
      sampleDisagreementRecord.pysbd_sentences (mkRat 9 10) = false ∨
    SeamsDisagreement.sentences_are_similar sampleDisagreementRecord.seams_sentences
      sampleDisagreementRecord.nupunkt_sentences (mkRat 9 10) = false :=
  records_only_when_not_equivalent.1
    [str "abcd efgh ijkl mnopq\n"] (str "src")
    (fun _ => [str "x"]) (fun _ => [str "x"])
    [⟨str "t1", 1, 1, 1, 7⟩, ⟨str "t2", 1, 8, 1, 14⟩, ⟨str "t3", 1, 15, 1, 21⟩]
    sampleDisagreementRecord (by decide)

/-! ### C7: chunker produces a bounded contiguous partition -/

theorem inner_advance_ge (seams_data : List SentCoord) (s : Nat) :
    ∀ fuel i, i ≤ SeamsDifferences.inner_advance seams_data s fuel i := by
  intro fuel
  induction fuel with
  | zero => intro i; exact Nat.le_refl i
  | succ fuel ih =>
    intro i
    unfold SeamsDifferences.inner_advance
    split_ifs
    · exact Nat.le_refl i
    · exact Nat.le_trans (Nat.le_succ i) (ih (i + 1))
    · exact Nat.le_refl i

theorem inner_advance_le (seams_data : List SentCoord) (s : Nat) :
    ∀ fuel i, i ≤ seams_data.length - 1 →
      SeamsDifferences.inner_advance seams_data s fuel i ≤ seams_data.length - 1 := by
  intro fuel
  induction fuel with
  | zero => intro i h; exact h
  | succ fuel ih =>
    intro i h
    unfold SeamsDifferences.inner_advance
    split_ifs with h1 h2
    · exact h
    · exact ih (i + 1) (by omega)
    · exact h

theorem inner_advance_cap (seams_data : List SentCoord) (s : Nat) :
    ∀ fuel i, s ≤ i → i ≤ s + 10 →
      SeamsDifferences.inner_advance seams_data s fuel i ≤ s + 10 := by
  intro fuel
  induction fuel with
  | zero => intro i _ h; exact h
  | succ fuel ih =>
    intro i hsi h
    unfold SeamsDifferences.inner_advance
    split_ifs with h1 h2
    · exact h
    · refine ih (i + 1) (by omega) ?_
      have hcap : ¬ (10 ≤ i - s) := by
        intro hge
        apply absurd h2
        simp only [SeamsDifferences.boundary_break, Bool.not_eq_false]
        simp [hge]
      omega
    · exact h

theorem boundaries_from_succ (seams_data : List SentCoord) (fuel i : Nat) :
    SeamsDifferences.boundaries_from seams_data (fuel + 1) i
      = if i < seams_data.length then
          (i, SeamsDifferences.chunk_end seams_data i)
            :: SeamsDifferences.boundaries_from seams_data fuel
                 (SeamsDifferences.chunk_end seams_data i)
        else [] := rfl

theorem chunk_end_bounds (seams_data : List SentCoord) (i : Nat)
    (h : i < seams_data.length) :
    i < SeamsDifferences.chunk_end seams_data i ∧
      SeamsDifferences.chunk_end seams_data i ≤ seams_data.length ∧
      SeamsDifferences.chunk_end seams_data i ≤ i + 10 := by
  simp only [SeamsDifferences.chunk_end]
  have hge : i ≤ SeamsDifferences.inner_advance seams_data i seams_data.length i :=
    inner_advance_ge seams_data i seams_data.length i
  have hle : SeamsDifferences.inner_advance seams_data i seams_data.length i
      ≤ seams_data.length - 1 :=
    inner_advance_le seams_data i seams_data.length i (by omega)
  have hcap : SeamsDifferences.inner_advance seams_data i seams_data.length i
      ≤ i + 10 :=
    inner_advance_cap seams_data i seams_data.length i (Nat.le_refl i) (by omega)
  split_ifs with he
  · omega
  · omega

theorem boundaries_from_partition (seams_data : List SentCoord) :
    ∀ fuel i, i < seams_data.length → seams_data.length ≤ fuel + i →
      isPartitionFrom i (SeamsDifferences.boundaries_from seams_data fuel i)
          seams_data.length = true ∧
        ∀ p ∈ SeamsDifferences.boundaries_from seams_data fuel i,
          p.1 < p.2 ∧ p.2 - p.1 ≤ 10 := by
  intro fuel
  induction fuel with
  | zero => intro i h1 h2; omega
  | succ fuel ih =>
    intro i h1 h2
    rw [boundaries_from_succ, if_pos h1]
    obtain ⟨hlt, hle, hcap⟩ := chunk_end_bounds seams_data i h1
    set i' := SeamsDifferences.chunk_end seams_data i with hi'
    by_cases hend : i' < seams_data.length
    · obtain ⟨hp, hall⟩ := ih i' hend (by omega)
      constructor
      · simp [isPartitionFrom, hlt, hp]
      · intro p hp'
        rcases List.mem_cons.mp hp' with rfl | hmem
        · exact ⟨hlt, by omega⟩
        · exact hall p hmem
    · have hstop : i' = seams_data.length := by omega
      have hnil : SeamsDifferences.boundaries_from seams_data fuel i' = [] := by
        cases fuel with
        | zero => rfl
        | succ fuel => rw [boundaries_from_succ, if_neg (by omega)]
      rw [hnil]
      constructor
      · simp [isPartitionFrom, hstop, hlt, h1]
      · intro p hp'
        rcases List.mem_cons.mp hp' with rfl | hmem
        · exact ⟨hlt, by omega⟩
        · exact absurd hmem (List.not_mem_nil p)

/-- C7: for a non-empty tagged-sentence list, the chunker's `(start, end)`
boundaries form a contiguous ordered partition of the index interval
`[0, len)` — every sentence index lies in exactly one chunk and the chunks
appear in input order — and every chunk holds at least 1 and at most 10
sentences. -/
theorem chunker_bounded_partition (seams_data : List SentCoord)
    (h : seams_data ≠ []) :
    isPartitionFrom 0 (SeamsDifferences.find_natural_text_boundaries seams_data)
        seams_data.length = true ∧
    (SeamsDifferences.find_natural_text_boundaries seams_data).all
      (fun p => decide (p.1 < p.2) && decide (p.2 - p.1 ≤ 10)) = true := by
  have hlen : 0 < seams_data.length := List.length_pos.mpr h
  obtain ⟨hp, hall⟩ := boundaries_from_partition seams_data seams_data.length 0 hlen
    (by omega)
  refine ⟨hp, ?_⟩
  rw [List.all_eq_true]
  intro p hpmem
  obtain ⟨h1, h2⟩ := hall p hpmem
  simp [h1, h2]

/-- C7 witness: a concrete four-sentence input (with a paragraph gap after
the second sentence) is partitioned into contiguous chunks of size 1 to 10. -/
theorem chunker_bounded_partition_witness :
    isPartitionFrom 0 (SeamsDifferences.find_natural_text_boundaries
        [⟨str "a.", 1, 1, 1, 2⟩, ⟨str "b.", 1, 4, 1, 5⟩,
         ⟨str "c.", 3, 1, 3, 2⟩, ⟨str "d.", 3, 4, 3, 5⟩]) 4 = true ∧
    (SeamsDifferences.find_natural_text_boundaries
        [⟨str "a.", 1, 1, 1, 2⟩, ⟨str "b.", 1, 4, 1, 5⟩,
         ⟨str "c.", 3, 1, 3, 2⟩, ⟨str "d.", 3, 4, 3, 5⟩]).all
      (fun p => decide (p.1 < p.2) && decide (p.2 - p.1 ≤ 10)) = true :=
  chunker_bounded_partition
    [⟨str "a.", 1, 1, 1, 2⟩, ⟨str "b.", 1, 4, 1, 5⟩,
     ⟨str "c.", 3, 1, 3, 2⟩, ⟨str "d.", 3, 4, 3, 5⟩] (by decide)

/-! ### C9: out-of-range spans fail and only the chunk is skipped -/

/-- C9: a span whose start or end line exceeds the document fails extraction
(the empty result is the `OutOfRangeSpan` signal), and the region loop of
`find_overlapping_regions` reacts to such a chunk by leaving its entire
state — both the comparison cursor and the accumulated examples — unchanged
and moving on to the next chunk; since every step is a total function, the
batch is never aborted. -/
theorem out_of_range_span_skips_chunk :
    (∀ (lines : List Str) (sl sc el ec : Nat),
      lines.length < sl ∨ lines.length < el →
      BoundaryGold.extract_original_region lines sl sc el ec = []) ∧
    (∀ (navail pavail : Bool) (nseg pseg : Str → List Str)
        (seams_sentences : List SentCoord) (comparison_sentences : List Str)
        (original_lines : List Str) (comparison_method : Str)
        (st : Nat × List BoundaryExample) (seams_start : Nat),
      (original_lines.length
          < ((seams_sentences.drop seams_start).take 3).headI.start_line ∨
        original_lines.length
          < ((seams_sentences.drop seams_start).take 3).getLastI.end_line) →
      BoundaryGold.find_overlapping_step navail pavail nseg pseg seams_sentences
        comparison_sentences original_lines comparison_method st seams_start = st) := by
  constructor
  · intro lines sl sc el ec h
    unfold BoundaryGold.extract_original_region
    rw [if_pos h]
  · intro navail pavail nseg pseg seams_sentences comparison_sentences
      original_lines comparison_method st seams_start h
    have hz : BoundaryGold.extract_original_region original_lines
        ((seams_sentences.drop seams_start).take 3).headI.start_line
        ((seams_sentences.drop seams_start).take 3).headI.start_col
        ((seams_sentences.drop seams_start).take 3).getLastI.end_line
        ((seams_sentences.drop seams_start).take 3).getLastI.end_col = [] := by
      unfold BoundaryGold.extract_original_region
      rw [if_pos h]
    simp only [BoundaryGold.find_overlapping_step]
    split_ifs with h1 h2 h3 h4 <;> first | rfl | exact absurd (Or.inl hz) h2

/-- C9 witness: a one-line document with a span ending on line 5 extracts
`""` and the region loop's step leaves the state untouched. -/
theorem out_of_range_span_skips_chunk_witness :
    BoundaryGold.extract_original_region [str "a"] 1 1 5 2 = [] ∧
    BoundaryGold.find_overlapping_step false false (fun _ => []) (fun _ => [])
      [⟨str "s", 1, 1, 5, 2⟩] [] [str "a"] [] (0, []) 0 = (0, []) :=
  ⟨out_of_range_span_skips_chunk.1 [str "a"] 1 1 5 2 (by decide),
   out_of_range_span_skips_chunk.2 false false (fun _ => []) (fun _ => [])
     [⟨str "s", 1, 1, 5, 2⟩] [] [str "a"] [] (0, []) 0 (by decide)⟩

/-! ### C10: only over- and under-splits at this call site -/

/-- The two-way classifier on lists of different lengths never answers
`different_boundaries`. -/
theorem classify_two_of_length_ne (a b : List Str) (h : b.length ≠ a.length) :
    BoundaryGold.classify_disagreement a b = str "over_split" ∨
    BoundaryGold.classify_disagreement a b = str "under_split" := by
  unfold BoundaryGold.classify_disagreement
  rcases Nat.lt_or_ge a.length b.length with hlt | hge
  · rw [if_pos hlt]
    exact Or.inl rfl
  · rw [if_neg (by omega), if_pos (by omega)]
    exact Or.inr rfl

theorem find_overlapping_step_types (navail pavail : Bool)
    (nseg pseg : Str → List Str) (seams_sentences : List SentCoord)
    (comparison_sentences : List Str) (original_lines : List Str)
    (comparison_method : Str) (st : Nat × List BoundaryExample)
    (seams_start : Nat) (ex : BoundaryExample)
    (hmem : ex ∈ (BoundaryGold.find_overlapping_step navail pavail nseg pseg
      seams_sentences comparison_sentences original_lines comparison_method
      st seams_start).2) :
    ex ∈ st.2 ∨ ex.disagreement_type = str "over_split" ∨
      ex.disagreement_type = str "under_split" := by
  simp only [BoundaryGold.find_overlapping_step] at hmem
  split_ifs at hmem with h1 h2 h3 h4 <;>
    first
      | exact Or.inl hmem
      | { rcases List.mem_append.mp hmem with hmem' | hmem'
          · exact Or.inl hmem'
          · rw [List.mem_singleton] at hmem'
            subst hmem'
            exact Or.inr (classify_two_of_length_ne _ _ h3.1) }

/-- C10: every `BoundaryExample` produced by `find_overlapping_regions` has
disagreement type `over_split` or `under_split`; the guard at the call site
only admits an overlap list that is non-empty and of a different length than
the seams list, so `different_boundaries` is never assigned. -/
theorem boundary_examples_over_or_under (navail pavail : Bool)
    (nseg pseg : Str → List Str) (seams_sentences : List SentCoord)
    (comparison_sentences : List Str) (original_lines : List Str)
    (comparison_method : Str) (ex : BoundaryExample)
    (hmem : ex ∈ BoundaryGold.find_overlapping_regions navail pavail nseg pseg
      seams_sentences comparison_sentences original_lines comparison_method) :
    ex.disagreement_type = str "over_split" ∨
      ex.disagreement_type = str "under_split" := by
  have hfold : ∀ (idxs : List Nat) (st : Nat × List BoundaryExample),
      ex ∈ (idxs.foldl (BoundaryGold.find_overlapping_step navail pavail nseg pseg
        seams_sentences comparison_sentences original_lines comparison_method) st).2 →
      ex ∈ st.2 ∨ ex.disagreement_type = str "over_split" ∨
        ex.disagreement_type = str "under_split" := by
    intro idxs
    induction idxs with
    | nil => intro st h; exact Or.inl h
    | cons i idxs ih =>
      intro st h
      rw [List.foldl_cons] at h
      rcases ih _ h with h' | h'
      · exact find_overlapping_step_types navail pavail nseg pseg seams_sentences
          comparison_sentences original_lines comparison_method st i ex h'
      · exact Or.inr h'
  have := hfold (List.range' 0 (seams_sentences.length / 2) 2) (0, []) hmem
  rcases this with h | h
  · exact absurd h (List.not_mem_nil ex)
  · exact h

/-- Concrete run of `find_overlapping_regions` producing one example
(three seams sentences, one overlapping comparison sentence). -/
def sampleBoundaryExample : BoundaryExample :=
  (BoundaryGold.find_overlapping_regions false false (fun _ => []) (fun _ => [])
    [⟨str "s1", 1, 1, 1, 10⟩, ⟨str "s2", 1, 11, 1, 30⟩, ⟨str "s3", 1, 31, 1, 55⟩]
    [str "abcd"]
    [str "abcd efgh ijkl mnop qrst uvwx yzab cdef ghij klmn opqr\n"]
    (str "fast")).headI

/-- C10 witness: the example produced by the concrete run is classified
`over_split` or `under_split` (it is an under-split: one comparison sentence
against three seams sentences). -/
theorem boundary_examples_over_or_under_witness :
    sampleBoundaryExample.disagreement_type = str "over_split" ∨
      sampleBoundaryExample.disagreement_type = str "under_split" :=
  boundary_examples_over_or_under false false (fun _ => []) (fun _ => [])
    [⟨str "s1", 1, 1, 1, 10⟩, ⟨str "s2", 1, 11, 1, 30⟩, ⟨str "s3", 1, 31, 1, 55⟩]
    [str "abcd"]
    [str "abcd efgh ijkl mnop qrst uvwx yzab cdef ghij klmn opqr\n"]
    (str "fast") sampleBoundaryExample (by decide)

/-! ### C8: stratified sampler -/

theorem getD_eq_getElem_of_lt {α : Type} (l : List α) (i : Nat) (d : α)
    (h : i < l.length) : l.getD i d = l[i] := by
  simp [List.getD_eq_getElem?_getD, List.getElem?_eq_getElem h]

theorem sample_decomp {α : Type} (xs : List α) (i : Nat) (h : i < xs.length) :
    xs = xs.take i ++ xs[i] :: xs.drop (i + 1) := by
  conv_lhs => rw [← List.take_append_drop i xs]
  rw [List.drop_eq_getElem_cons h]

theorem pySampleS_cons {α : Type} [Inhabited α] (g : Nat) (x₀ : α) (t : List α)
    (k : Nat) :
    BoundaryGold.pySampleS g (x₀ :: t) (k + 1)
      = ((x₀ :: t).getD (g % (x₀ :: t).length) default
          :: (BoundaryGold.pySampleS (BoundaryGold.lcgNext g)
                ((x₀ :: t).take (g % (x₀ :: t).length)
                  ++ (x₀ :: t).drop (g % (x₀ :: t).length + 1)) k).1,
         (BoundaryGold.pySampleS (BoundaryGold.lcgNext g)
                ((x₀ :: t).take (g % (x₀ :: t).length)
                  ++ (x₀ :: t).drop (g % (x₀ :: t).length + 1)) k).2) := rfl

/-- The modelled `random.sample`: `min k len` draws, all from the pool, with
no element drawn twice when the pool has no duplicates. -/
theorem pySampleS_spec {α : Type} [Inhabited α] :
    ∀ (k g : Nat) (xs : List α),
      (BoundaryGold.pySampleS g xs k).1.length = min k xs.length ∧
      (∀ y ∈ (BoundaryGold.pySampleS g xs k).1, y ∈ xs) ∧
      (xs.Nodup → (BoundaryGold.pySampleS g xs k).1.Nodup) := by
  intro k
  induction k with
  | zero =>
    intro g xs
    refine ⟨by simp [BoundaryGold.pySampleS], by simp [BoundaryGold.pySampleS],
      fun _ => by simp [BoundaryGold.pySampleS]⟩
  | succ k ih =>
    intro g xs
    match xs with
    | [] => simp [BoundaryGold.pySampleS]
    | x₀ :: t =>
      rw [pySampleS_cons]
      have hlen : 0 < (x₀ :: t).length := by simp
      have hilt : g % (x₀ :: t).length < (x₀ :: t).length := Nat.mod_lt _ hlen
      set i := g % (x₀ :: t).length with hi
      set xs := x₀ :: t with hxs
      set rest := xs.take i ++ xs.drop (i + 1) with hrest
      have hrestlen : rest.length = xs.length - 1 := by
        rw [hrest]
        rw [List.length_append, List.length_take, List.length_drop]
        omega
      have hrestsub : rest ⊆ xs := by
        rw [hrest]
        exact List.append_subset.mpr ⟨List.take_subset i xs, List.drop_subset (i + 1) xs⟩
      have hx : xs.getD i default = xs[i] := getD_eq_getElem_of_lt xs i default hilt
      obtain ⟨ihlen, ihsub, ihnd⟩ := ih (BoundaryGold.lcgNext g) rest
      refine ⟨?_, ?_, ?_⟩
      · simp only [List.length_cons, ihlen, hrestlen]
        have : 0 < xs.length := hlen
        omega
      · intro y hy
        rcases List.mem_cons.mp hy with rfl | hy'
        · rw [hx]; exact List.getElem_mem hilt
        · exact hrestsub (ihsub y hy')
      · intro hnd
        have hmid : (xs[i] :: rest).Nodup := by
          rw [hrest]
          exact List.nodup_middle.mp (sample_decomp xs i hilt ▸ hnd)
        have hxrest : xs[i] ∉ rest := (List.nodup_cons.mp hmid).1
        have hrestnd : rest.Nodup := (List.nodup_cons.mp hmid).2
        rw [hx]
        exact List.nodup_cons.mpr
          ⟨fun hmem => hxrest (ihsub _ hmem), ihnd hrestnd⟩

theorem firstKeys_go_spec :
    ∀ (l acc : List Str), acc.Nodup →
      ((l.foldl (fun acc k => if k ∈ acc then acc else acc ++ [k]) acc).Nodup ∧
        ∀ x, x ∈ l.foldl (fun acc k => if k ∈ acc then acc else acc ++ [k]) acc ↔
          x ∈ acc ∨ x ∈ l) := by
  intro l
  induction l with
  | nil => intro acc h; exact ⟨h, fun x => by simp⟩
  | cons k l ih =>
    intro acc h
    rw [List.foldl_cons]
    by_cases hk : k ∈ acc
    · rw [if_pos hk]
      obtain ⟨h1, h2⟩ := ih acc h
      refine ⟨h1, fun x => ?_⟩
      rw [h2 x]
      constructor
      · rintro (hx | hx)
        · exact Or.inl hx
        · exact Or.inr (List.mem_cons_of_mem k hx)
      · rintro (hx | hx)
        · exact Or.inl hx
        · rcases List.mem_cons.mp hx with rfl | hx'
          · exact Or.inl hk
          · exact Or.inr hx'
    · rw [if_neg hk]
      have hnd : (acc ++ [k]).Nodup :=
        List.Nodup.append h (List.nodup_singleton k)
          (fun a ha hb => hk ((List.mem_singleton.mp hb) ▸ ha))
      obtain ⟨h1, h2⟩ := ih (acc ++ [k]) hnd
      refine ⟨h1, fun x => ?_⟩
      rw [h2 x]
      constructor
      · rintro (hx | hx)
        · rcases List.mem_append.mp hx with hx' | hx'
          · exact Or.inl hx'
          · exact Or.inr (List.mem_cons.mpr (Or.inl (List.mem_singleton.mp hx')))
        · exact Or.inr (List.mem_cons_of_mem k hx)
      · rintro (hx | hx)
        · exact Or.inl (List.mem_append.mpr (Or.inl hx))
        · rcases List.mem_cons.mp hx with rfl | hx'
          · exact Or.inl (List.mem_append.mpr (Or.inr (List.mem_singleton.mpr rfl)))
          · exact Or.inr hx'

theorem firstKeys_nodup (l : List Str) : (BoundaryGold.firstKeys l).Nodup :=
  (firstKeys_go_spec l [] List.nodup_nil).1

theorem mem_firstKeys (l : List Str) (x : Str) :
    x ∈ BoundaryGold.firstKeys l ↔ x ∈ l := by
  rw [BoundaryGold.firstKeys, (firstKeys_go_spec l [] List.nodup_nil).2 x]
  simp

/-- Invariant of the per-category selection fold: the accumulated selection
stays duplicate-free, stays inside the candidate pool, and grows by at most
`q` per category. -/
theorem category_fold_inv (all : List BoundaryExample) (q : Nat)
    (hall : all.Nodup) :
    ∀ (keys : List Str) (acc : List BoundaryExample × Nat),
      keys.Nodup → acc.1.Nodup → acc.1 ⊆ all →
      (∀ ex ∈ acc.1, BoundaryGold.exampleKey ex ∉ keys) →
      (keys.foldl (BoundaryGold.category_step all q) acc).1.Nodup ∧
      (keys.foldl (BoundaryGold.category_step all q) acc).1 ⊆ all ∧
      (keys.foldl (BoundaryGold.category_step all q) acc).1.length
        ≤ acc.1.length + keys.length * q := by
  intro keys
  induction keys with
  | nil => intro acc _ h1 h2 _; exact ⟨h1, h2, by simp⟩
  | cons key keys ih =>
    intro acc hknd h1 h2 h3
    rw [List.foldl_cons]
    have hkey_notin : key ∉ keys := (List.nodup_cons.mp hknd).1
    have hknd' : keys.Nodup := (List.nodup_cons.mp hknd).2
    by_cases hne : all.filter (fun ex => BoundaryGold.exampleKey ex = key) ≠ []
    · have hstep : BoundaryGold.category_step all q acc key
          = (acc.1 ++ (BoundaryGold.pySampleS acc.2
              (all.filter (fun ex => BoundaryGold.exampleKey ex = key))
              (min (min (all.filter (fun ex => BoundaryGold.exampleKey ex = key)).length q)
                (all.filter (fun ex => BoundaryGold.exampleKey ex = key)).length)).1,
             (BoundaryGold.pySampleS acc.2
              (all.filter (fun ex => BoundaryGold.exampleKey ex = key))
              (min (min (all.filter (fun ex => BoundaryGold.exampleKey ex = key)).length q)
                (all.filter (fun ex => BoundaryGold.exampleKey ex = key)).length)).2) := by
        simp only [BoundaryGold.category_step]
        rw [if_pos hne]
      rw [hstep]
      set examples := all.filter (fun ex => BoundaryGold.exampleKey ex = key) with hex
      set kk := min (min examples.length q) examples.length with hkk
      obtain ⟨hslen, hssub, hsnd⟩ := pySampleS_spec kk acc.2 examples
      set drawn := (BoundaryGold.pySampleS acc.2 examples kk).1 with hdrawn
      have hexnd : examples.Nodup := hall.filter _
      have hdnd : drawn.Nodup := hsnd hexnd
      have hdkey : ∀ ex ∈ drawn, BoundaryGold.exampleKey ex = key := by
        intro ex hmem
        have := List.mem_filter.mp (hssub ex hmem)
        simpa using this.2
      have hdisj : acc.1.Disjoint drawn := by
        intro a ha hb
        have hk1 : BoundaryGold.exampleKey a ∉ key :: keys := h3 a ha
        exact hk1 ((hdkey a hb) ▸ List.mem_cons_self key keys)
      have hnd2 : (acc.1 ++ drawn).Nodup := h1.append hdnd hdisj
      have hsub2 : acc.1 ++ drawn ⊆ all := by
        rw [List.append_subset]
        exact ⟨h2, fun y hy => List.mem_of_mem_filter (hssub y hy)⟩
      have h3' : ∀ ex ∈ acc.1 ++ drawn, BoundaryGold.exampleKey ex ∉ keys := by
        intro ex hmem
        rcases List.mem_append.mp hmem with hm | hm
        · exact fun hc => h3 ex hm (List.mem_cons_of_mem key hc)
        · exact (hdkey ex hm) ▸ hkey_notin
      obtain ⟨r1, r2, r3⟩ := ih ((acc.1 ++ drawn),
        (BoundaryGold.pySampleS acc.2 examples kk).2) hknd' hnd2 hsub2 h3'
      refine ⟨r1, r2, ?_⟩
      have hdlen : drawn.length ≤ q := by
        rw [hdrawn, hslen]
        omega
      rw [List.length_cons, Nat.succ_mul]
      rw [List.length_append] at r3
      generalize keys.length * q = M at r3 ⊢
      omega
    · have hstep : BoundaryGold.category_step all q acc key = acc := by
        simp only [BoundaryGold.category_step]
        rw [if_neg hne]
      rw [hstep]
      obtain ⟨r1, r2, r3⟩ := ih acc hknd' h1 h2
        (fun ex hmem hc => h3 ex hmem (List.mem_cons_of_mem key hc))
      refine ⟨r1, r2, ?_⟩
      rw [List.length_cons, Nat.succ_mul]
      generalize keys.length * q = M at r3 ⊢
      omega

theorem length_filter_partition {α : Type} (p : α → Bool) (xs : List α) :
    (xs.filter p).length + (xs.filter (fun x => !p x)).length = xs.length := by
  induction xs with
  | nil => rfl
  | cons x xs ih =>
    cases hp : p x <;> simp [List.filter_cons, hp, ← ih] <;> omega

/-- Removing the selected elements from a duplicate-free pool leaves exactly
`pool − selection` elements. -/
theorem filter_not_mem_length (xs sel : List BoundaryExample)
    (hxs : xs.Nodup) (hsel : sel.Nodup) (hsub : sel ⊆ xs) :
    (xs.filter (fun x => decide (x ∉ sel))).length = xs.length - sel.length := by
  have hperm : List.Perm (xs.filter (fun x => decide (x ∈ sel))) sel := by
    apply List.Subperm.antisymm
    · exact List.subperm_of_subset (hxs.filter _)
        (fun y hy => by simpa using (List.mem_filter.mp hy).2)
    · exact List.subperm_of_subset hsel
        (fun y hy => List.mem_filter.mpr ⟨hsub hy, by simpa⟩)
  have hlen := hperm.length_eq
  have hpart := length_filter_partition (fun x => decide (x ∈ sel)) xs
  have hnot : xs.filter (fun x => !decide (x ∈ sel))
      = xs.filter (fun x => decide (x ∉ sel)) := by
    apply List.filter_congr
    intro x _
    simp [decide_not]
  rw [hnot] at hpart
  omega

theorem top_up_spec (all : List BoundaryExample) (target : Nat)
    (fold : List BoundaryExample × Nat)
    (hall : all.Nodup) (hnd : fold.1.Nodup) (hsub : fold.1 ⊆ all)
    (hlen : fold.1.length ≤ target) (hN : target ≤ all.length) :
    (BoundaryGold.top_up all target fold).1.length = target ∧
    (BoundaryGold.top_up all target fold).1.Nodup := by
  have hremlen : (all.filter (fun ex => decide (ex ∉ fold.1))).length
      = all.length - fold.1.length :=
    filter_not_mem_length all fold.1 hall hnd hsub
  simp only [BoundaryGold.top_up]
  split_ifs with h1 h2
  · obtain ⟨slen, ssub, snd⟩ := pySampleS_spec
      (min (target - fold.1.length) (all.filter (fun ex => decide (ex ∉ fold.1))).length)
      fold.2 (all.filter (fun ex => decide (ex ∉ fold.1)))
    constructor
    · rw [List.length_append, slen, hremlen]
      omega
    · refine hnd.append (snd (hall.filter _)) ?_
      intro a ha hb
      have hmem := List.mem_filter.mp (ssub a hb)
      have : a ∉ fold.1 := by simpa using hmem.2
      exact this ha
  · exfalso
    apply h2
    intro hni
    rw [hni] at hremlen
    simp at hremlen
    omega
  · exact ⟨by omega, hnd⟩

/-- C8 (corrected), amended claim: when the Sampler runs with target size
`N ≤ number of candidates` over *pairwise-distinct* candidates, it returns
exactly `N` examples with no candidate selected twice, and — being a pure
function of the seed, the candidate list and the target — two runs with
identical candidates, ordering and seed produce the identical output in the
identical order. -/
theorem stratified_sampler_spec (g0 : Nat) (all_examples : List BoundaryExample)
    (target_size : Nat) (hall : all_examples.Nodup)
    (hN : target_size ≤ all_examples.length) :
    (BoundaryGold.stratified_sample g0 all_examples target_size).length
        = target_size ∧
    (BoundaryGold.stratified_sample g0 all_examples target_size).Nodup ∧
    BoundaryGold.stratified_sample g0 all_examples target_size
      = BoundaryGold.stratified_sample g0 all_examples target_size := by
  set keys := BoundaryGold.firstKeys (all_examples.map BoundaryGold.exampleKey)
    with hkeys
  set q := target_size / keys.length with hq
  set fold := keys.foldl (BoundaryGold.category_step all_examples q) ([], g0)
    with hfold
  obtain ⟨selnd, selsub, sellen⟩ := category_fold_inv all_examples q hall keys
    ([], g0) (firstKeys_nodup _) List.nodup_nil (List.nil_subset _)
    (by intro ex h; cases h)
  have hsel_le : fold.1.length ≤ target_size := by
    have hb : keys.length * q ≤ target_size := by
      rw [hq, Nat.mul_comm]
      exact Nat.div_mul_le_self target_size keys.length
    rw [hfold]
    calc (keys.foldl (BoundaryGold.category_step all_examples q) ([], g0)).1.length
        ≤ ([] : List BoundaryExample).length + keys.length * q := sellen
      _ ≤ target_size := by simpa using hb
  obtain ⟨tlen, tnd⟩ := top_up_spec all_examples target_size fold hall
    (hfold ▸ selnd) (hfold ▸ selsub) hsel_le hN
  obtain ⟨shlen, shsub, shnd⟩ := pySampleS_spec
    (BoundaryGold.top_up all_examples target_size fold).1.length
    (BoundaryGold.top_up all_examples target_size fold).2
    (BoundaryGold.top_up all_examples target_size fold).1
  have heq : BoundaryGold.stratified_sample g0 all_examples target_size
      = (BoundaryGold.pySampleS
          (BoundaryGold.top_up all_examples target_size fold).2
          (BoundaryGold.top_up all_examples target_size fold).1
          (BoundaryGold.top_up all_examples target_size fold).1.length).1.take
            target_size := rfl
  refine ⟨?_, ?_, rfl⟩
  · rw [heq, List.length_take, shlen, tlen]
    omega
  · rw [heq]
    exact (shnd tnd).sublist (List.take_sublist _ _)

/-- A candidate example with disagreement type `o`. -/
def dupExampleA : BoundaryExample :=
  ⟨str "t", [], [], str "f", [], [], [], 1, 1, str "c", str "o"⟩

/-- A candidate example with disagreement type `u` (a different key). -/
def dupExampleB : BoundaryExample :=
  ⟨str "t", [], [], str "f", [], [], [], 1, 1, str "c", str "u"⟩

/-- C8 counterexample: four candidates (three of them equal by value) with
target 4 — at least as many candidates as the target — yield only three
examples, because the top-up remainder `[ex for ex in all if ex not in
selected]` excludes *by value* every copy of an already-selected example. -/
theorem stratified_sampler_counterexample :
    ([dupExampleA, dupExampleA, dupExampleA, dupExampleB] :
        List BoundaryExample).length = 4 ∧
    (BoundaryGold.stratified_sample 42
        [dupExampleA, dupExampleA, dupExampleA, dupExampleB] 4).length = 3 := by
  constructor
  · rfl
  · decide

/-- C8 witness: two distinct candidates, target 1. -/
theorem stratified_sampler_spec_witness :
    (BoundaryGold.stratified_sample 7 [dupExampleA, dupExampleB] 1).length = 1 ∧
    (BoundaryGold.stratified_sample 7 [dupExampleA, dupExampleB] 1).Nodup ∧
    BoundaryGold.stratified_sample 7 [dupExampleA, dupExampleB] 1
      = BoundaryGold.stratified_sample 7 [dupExampleA, dupExampleB] 1 :=
  stratified_sampler_spec 7 [dupExampleA, dupExampleB] 1 (by decide) (by decide)
